import Mathlib

/-!
Verification of the Game of Life simulator in src/gol.c against its
natural-language specification.

The C program is shallowly embedded: the fixed 8 by 8 char grid becomes a
total function from coordinates to cell values, the in-place generation
loop becomes a fold over the row-major list of coordinates threading the
pair of board buffers, and the CLI pattern dispatch becomes a function
returning an optional error message together with the resulting buffers.
C int arithmetic on indices is modelled with Int and truncating tmod,
matching the semantics of the C percent operator.
-/

/-- The board side length, from the C enum constant N = 8. -/
abbrev N : Nat := 8

/-- The C enum constant ALIVE = 1. -/
def ALIVE : Nat := 1

/-- The C enum constant DEAD = 0. -/
def DEAD : Nat := 0

/-- The board type: the C `char board[N][N]` as a total function on
in-range coordinates. Cell values are the stored char codes. -/
abbrev Board := Fin N → Fin N → Nat

/-- The C accessor macro `life_cell(b, x, y) = b[x][y]`. -/
def life_cell (b : Board) (x y : Fin N) : Nat := b x y

/-- The C macro `set_cell(b, x, y, v)`, as a functional update that
changes only the single cell (x, y). -/
def set_cell (b : Board) (x y : Fin N) (v : Nat) : Board :=
  fun x' y' => if x' = x ∧ y' = y then v else b x' y'

/-- The all-dead board produced by `memset(current_board, 0, ...)`. -/
def dead_board : Board := fun _ _ => DEAD

/-- The board written by the C function `blinker`: memset to 0, then
cells (3,4), (4,4), (5,4) set to 1. -/
def blinker : Board :=
  set_cell (set_cell (set_cell dead_board 3 4 1) 4 4 1) 5 4 1

/-- The board written by the C function `toad`: memset to 0, then
cells (3,3), (3,4), (3,5), (4,2), (4,3), (4,4) set to 1. -/
def toad : Board :=
  set_cell (set_cell (set_cell (set_cell (set_cell (set_cell
    dead_board 3 3 1) 3 4 1) 3 5 1) 4 2 1) 4 3 1) 4 4 1

/-- The board written by the C function `beacon`: memset to 0, then
cells (1,5), (1,6), (2,5), (2,6), (3,3), (3,4), (4,3), (4,4) set to 1. -/
def beacon : Board :=
  set_cell (set_cell (set_cell (set_cell (set_cell (set_cell (set_cell
    (set_cell dead_board 1 5 1) 1 6 1) 2 5 1) 2 6 1) 3 3 1) 3 4 1)
    4 3 1) 4 4 1

/-- The board written by the C function `test_board`: memset to 0, then
cells (0,0), (N-1,0), (N-1,1) set to 1. -/
def test_board : Board :=
  set_cell (set_cell (set_cell dead_board 0 0 1)
    (⟨N - 1, by decide⟩ : Fin N) 0 1) (⟨N - 1, by decide⟩ : Fin N) 1 1

/-- The board written by the C function `random_board`, which fills every
cell with `rand() % 2` in row-major order. The C library rand stream is
modelled as an injected sequence of naturals; the call for cell
(row, col) is the (row * N + col)-th element of the stream. -/
def random_board (randf : Nat → Nat) : Board :=
  fun row col => randf (row.val * N + col.val) % 2

/-- The C index computation `expr % total_rows` on ints followed by the
array access: truncating remainder (the semantics of the C percent
operator on int), taken as an in-range coordinate. -/
def torus (x : Int) : Fin N :=
  ⟨(x.tmod (N : Int)).toNat, by
    show (x.tmod (8 : Int)).toNat < 8
    have h : x.tmod (8 : Int) < (8 : Int) := Int.tmod_lt_of_pos x (by decide)
    omega⟩

/-- The static offsets array of the C function `live_neighbors`. -/
def offsets : List (Int × Int) :=
  [(-1, -1), (-1, 0), (-1, 1), (0, -1), (0, 1), (1, -1), (1, 0), (1, 1)]

/-- The C function `live_neighbors(board, row, col, N, N)`: for each of
the 8 offsets, index the board at
`(row + dr + total_rows) % total_rows, (col + dc + total_cols) % total_cols`
and count the cells equal to ALIVE. -/
def live_neighbors (b : Board) (row col : Fin N) : Nat :=
  offsets.countP (fun o =>
    life_cell b (torus ((row.val : Int) + o.1 + (N : Int)))
                (torus ((col.val : Int) + o.2 + (N : Int))) == ALIVE)

/-- The row-major list of all cell coordinates visited by the nested for
loops of the C function `generation`. -/
def cells : List (Fin N × Fin N) :=
  (List.finRange N).flatMap (fun r => (List.finRange N).map (fun c => (r, c)))

/-- The body of the C `generation` loop at one cell: compute the live
neighbor count from the source board, then write the destination cell
through the if / else-if chain. The chain has no final else, so a fall
through with no branch taken leaves the destination board untouched. -/
def gen_cell (from_b to_b : Board) (rc : Fin N × Fin N) : Board :=
  let numNeighbors := live_neighbors from_b rc.1 rc.2
  if numNeighbors < 2 then set_cell to_b rc.1 rc.2 DEAD
  else if numNeighbors = 2 then
    set_cell to_b rc.1 rc.2 (life_cell from_b rc.1 rc.2)
  else if numNeighbors = 3 then set_cell to_b rc.1 rc.2 ALIVE
  else if numNeighbors > 3 then set_cell to_b rc.1 rc.2 DEAD
  else to_b

/-- The C function `generation(from_board, to_board)`: fold the loop body
over all cells in row-major order, threading the pair of buffers. The
result is the pair (from buffer, to buffer) after the call returns. -/
def generation (from_b to_b : Board) : Board × Board :=
  cells.foldl (fun st rc => (st.1, gen_cell st.1 st.2 rc)) (from_b, to_b)

/-- The Game of Life transition rule as a function of the neighbor count
and the source cell value, read off the branches of the C chain. -/
def lifeRule (n s : Nat) : Nat :=
  if n < 2 then DEAD else if n = 2 then s else if n = 3 then ALIVE else DEAD

/-- The per-cell closed form of one generation: the destination board as
a pure function of the source board alone. -/
def step (b : Board) : Board :=
  fun r c => lifeRule (live_neighbors b r c) (life_cell b r c)

/-- The effect of C `tolower` in the default locale on a character code:
ASCII uppercase maps to lowercase, everything else is unchanged. Strings
are compared through these codes, mirroring the byte-wise comparison of
`strcasecmp`. -/
def tolower_code (c : Char) : Nat :=
  if 65 ≤ c.toNat ∧ c.toNat ≤ 90 then c.toNat + 32 else c.toNat

/-- The C test `strcasecmp(a, b) == 0`: the two strings agree character
by character after lowering. -/
def strcaseEq (a b : String) : Bool :=
  a.data.map tolower_code == b.data.map tolower_code

/-- Case-insensitive string equivalence, the relation `strcaseEq`
decides. -/
def case_eq (a b : String) : Prop :=
  a.data.map tolower_code = b.data.map tolower_code

instance (a b : String) : Decidable (case_eq a b) :=
  inferInstanceAs (Decidable (a.data.map tolower_code = b.data.map tolower_code))

/-- The C function `init(pattern)`. The TESTING preprocessor flag (which
compiles in the "test" branch) is the first argument; the rand stream
feeding `random_board` is the second. The state of the two global
buffers is passed explicitly, and the error path (which in C prints
`Unknown pattern: ...` and exits without touching any board) is modelled
by returning the message alongside the unchanged buffers. -/
def init (testing : Bool) (randf : Nat → Nat) (pattern : String)
    (current_board next_board : Board) : Option String × Board × Board :=
  if strcaseEq pattern "blinker" then (none, blinker, next_board)
  else if strcaseEq pattern "toad" then (none, toad, next_board)
  else if strcaseEq pattern "beacon" then (none, beacon, next_board)
  else if strcaseEq pattern "random" then (none, random_board randf, next_board)
  else if testing && strcaseEq pattern "test" then (none, test_board, next_board)
  else (some ("Unknown pattern: " ++ pattern ++ "\n"), current_board, next_board)

/-- One row of the output of the C function `print_board`: N characters,
`X` for a cell equal to ALIVE and `.` otherwise. -/
def render_row (board : Board) (row : Fin N) : String :=
  String.mk ((List.finRange N).map (fun col =>
    if life_cell board row col == ALIVE then 'X' else '.'))

/-- The rows of one rendered board, top row first. -/
def board_lines (board : Board) : List String :=
  (List.finRange N).map (render_row board)

/-- The full text printed by the C function `print_board`: each of the N
rows followed by a newline. -/
def print_board (board : Board) : String :=
  String.join ((board_lines board).map (fun line => line ++ "\n"))

/-- The boards printed by the loop of the C function `run` after the
initial render: each iteration computes `generation(b1, b2)`, prints the
new b2, then swaps the two buffer pointers. -/
def run_loop : Nat → Board → Board → List Board
  | 0, _, _ => []
  | i + 1, b1, b2 => ((generation b1 b2).2) :: run_loop i ((generation b1 b2).2) b1

/-- The full sequence of boards handed to `print_board` by the C function
`run`: the initial board, then the result of each of the 3 iterations. -/
def run_boards (b1 b2 : Board) : List Board :=
  b1 :: run_loop 3 b1 b2

/-- The text printed by the loop of the C function `run` after the
initial render: each generation rendered, then the extra blank line. -/
def run_out_loop : Nat → Board → Board → String
  | 0, _, _ => ""
  | i + 1, b1, b2 =>
    print_board ((generation b1 b2).2) ++ "\n"
      ++ run_out_loop i ((generation b1 b2).2) b1

/-- The full text printed by the C function `run`: the initial board and
a blank line, then the three generations each followed by a blank line. -/
def run_output (b1 b2 : Board) : String :=
  print_board b1 ++ "\n" ++ run_out_loop 3 b1 b2

/-- A board is 0/1-valued: every cell is DEAD or ALIVE. -/
def valid_board (b : Board) : Prop :=
  ∀ r c : Fin N, b r c = DEAD ∨ b r c = ALIVE

instance (b : Board) : Decidable (valid_board b) :=
  inferInstanceAs (Decidable (∀ r c : Fin N, b r c = DEAD ∨ b r c = ALIVE))

/-- The toroidal wrap exactly as the specification writes it:
`((x mod N) + N) mod N`. -/
def spec_wrap (x : Int) : Fin N :=
  ⟨((x.tmod (N : Int) + (N : Int)).tmod (N : Int)).toNat, by
    show ((x.tmod (8 : Int) + (8 : Int)).tmod (8 : Int)).toNat < 8
    have h : (x.tmod (8 : Int) + (8 : Int)).tmod (8 : Int) < (8 : Int) :=
      Int.tmod_lt_of_pos _ (by decide)
    omega⟩

/-- The neighbor count as the specification states it: the number of
ALIVE cells among the 8 positions obtained from the offsets, wrapped by
`spec_wrap` in each coordinate. -/
def spec_neighbor_count (b : Board) (row col : Fin N) : Nat :=
  offsets.countP (fun o =>
    b (spec_wrap ((row.val : Int) + o.1)) (spec_wrap ((col.val : Int) + o.2))
      == ALIVE)

/-- The if / else-if chain of the generation loop covers every neighbor
count, so the loop body always writes the destination cell, with the
value given by the transition rule. -/
theorem gen_cell_eq (fb tb : Board) (rc : Fin N × Fin N) :
    gen_cell fb tb rc =
      set_cell tb rc.1 rc.2
        (lifeRule (live_neighbors fb rc.1 rc.2) (life_cell fb rc.1 rc.2)) := by
  simp only [gen_cell, lifeRule]
  split_ifs with h1 h2 h3 h4
  any_goals rfl
  exact absurd (by omega) h4

/-- The generation fold never writes the source buffer. -/
theorem generation_foldl_fst (l : List (Fin N × Fin N)) (st : Board × Board) :
    (l.foldl (fun st rc => (st.1, gen_cell st.1 st.2 rc)) st).1 = st.1 := by
  induction l generalizing st with
  | nil => rfl
  | cons p l ih =>
    rw [List.foldl_cons]
    exact ih _

/-- The destination cell (r, c) after folding the generation body over a
list of coordinates: the rule value if (r, c) occurs in the list, the
untouched previous value otherwise. -/
theorem generation_foldl_cell (l : List (Fin N × Fin N)) (fb tb : Board)
    (r c : Fin N) :
    ((l.foldl (fun st rc => (st.1, gen_cell st.1 st.2 rc)) (fb, tb)).2) r c =
      if (r, c) ∈ l then step fb r c else tb r c := by
  induction l generalizing tb with
  | nil => simp
  | cons p l ih =>
    obtain ⟨pr, pc⟩ := p
    rw [List.foldl_cons]
    show ((l.foldl (fun st rc => (st.1, gen_cell st.1 st.2 rc))
      (fb, gen_cell fb tb (pr, pc))).2) r c =
        if (r, c) ∈ (pr, pc) :: l then step fb r c else tb r c
    rw [ih (gen_cell fb tb (pr, pc)), gen_cell_eq]
    by_cases hmem : (r, c) ∈ l
    · simp [hmem]
    · by_cases heq : (r, c) = (pr, pc)
      · rw [Prod.mk.injEq] at heq
        obtain ⟨hr, hc⟩ := heq
        subst hr
        subst hc
        simp [hmem, set_cell, step]
      · rw [Prod.mk.injEq] at heq
        simp [hmem, set_cell, List.mem_cons, Prod.mk.injEq, heq]

/-- Every coordinate of the board occurs in the row-major loop order. -/
theorem cells_complete : ∀ p : Fin N × Fin N, p ∈ cells := by decide

/-- No coordinate occurs twice in the row-major loop order. -/
theorem cells_nodup : cells.Nodup := by decide

/-- One call to the C function `generation` leaves the source buffer as
it was and overwrites the whole destination buffer with the per-cell
closed form. -/
theorem generation_eq (fb tb : Board) : generation fb tb = (fb, step fb) := by
  unfold generation
  have h1 := generation_foldl_fst cells (fb, tb)
  have h2 : (cells.foldl (fun st rc => (st.1, gen_cell st.1 st.2 rc))
      (fb, tb)).2 = step fb := by
    funext r c
    rw [generation_foldl_cell]
    simp [cells_complete (r, c)]
  exact Prod.ext h1 h2

/-- On every index actually formed by the neighbor loop (an in-range
coordinate plus one of the 8 offsets), the C index expression and the
wrap formula written in the specification agree. -/
theorem index_agree : ∀ (x : Fin N), ∀ o ∈ offsets,
    torus ((x.val : Int) + o.1 + (N : Int)) = spec_wrap ((x.val : Int) + o.1) ∧
    torus ((x.val : Int) + o.2 + (N : Int)) = spec_wrap ((x.val : Int) + o.2) := by
  decide

/-- C1: for every board and cell, the destination cell written by one
generation is determined by the source neighbor count n and the source
cell alone: DEAD if n is less than 2, the source state if n equals 2,
ALIVE if n equals 3, DEAD if n exceeds 3. -/
theorem gol_c1 (fb tb : Board) (r c : Fin N) :
    (live_neighbors fb r c < 2 → (generation fb tb).2 r c = DEAD) ∧
    (live_neighbors fb r c = 2 → (generation fb tb).2 r c = life_cell fb r c) ∧
    (live_neighbors fb r c = 3 → (generation fb tb).2 r c = ALIVE) ∧
    (3 < live_neighbors fb r c → (generation fb tb).2 r c = DEAD) := by
  rw [generation_eq]
  refine ⟨?_, ?_, ?_, ?_⟩ <;> intro h <;>
    simp only [step, lifeRule, life_cell] <;> split_ifs <;>
    first
    | rfl
    | omega

/-- Witness for C1: all four branches exercised at concrete cells of the
blinker and beacon boards. -/
theorem gol_c1_witness :
    (live_neighbors blinker 3 4 < 2 ∧
      (generation blinker dead_board).2 3 4 = DEAD) ∧
    (live_neighbors blinker 4 4 = 2 ∧
      (generation blinker dead_board).2 4 4 = life_cell blinker 4 4) ∧
    (live_neighbors blinker 4 3 = 3 ∧
      (generation blinker dead_board).2 4 3 = ALIVE) ∧
    (3 < live_neighbors beacon 2 5 ∧
      (generation beacon dead_board).2 2 5 = DEAD) :=
  ⟨⟨by decide, (gol_c1 blinker dead_board 3 4).1 (by decide)⟩,
   ⟨by decide, (gol_c1 blinker dead_board 4 4).2.1 (by decide)⟩,
   ⟨by decide, (gol_c1 blinker dead_board 4 3).2.2.1 (by decide)⟩,
   ⟨by decide, (gol_c1 beacon dead_board 2 5).2.2.2 (by decide)⟩⟩

/-- C2: for every board and cell, the C neighbor count equals the count
of ALIVE cells among the 8 offset positions wrapped exactly as the
specification writes the wrap, and in particular the wrap sends the row
above row 0 to row N - 1. -/
theorem gol_c2 (b : Board) (row col : Fin N) :
    live_neighbors b row col = spec_neighbor_count b row col ∧
    torus ((0 : Int) + (-1) + (N : Int)) = (⟨N - 1, by decide⟩ : Fin N) := by
  constructor
  · unfold live_neighbors spec_neighbor_count
    refine List.countP_congr ?_
    intro o ho
    simp only [life_cell]
    rw [(index_agree row o ho).1, (index_agree col o ho).2]
  · decide

/-- C3: the blinker returns to itself after exactly two generations, as
in the run loop, and differs from itself after one. -/
theorem gol_c3 :
    (generation ((generation blinker dead_board).2) blinker).2 = blinker ∧
    (generation blinker dead_board).2 ≠ blinker := by
  have key : ∀ b b' : Board, (generation b b').2 = step b := fun b b' => by
    rw [generation_eq]
  simp only [key]
  exact ⟨by decide, by decide⟩

/-- C4: the toad and the beacon each return to themselves after exactly
two generations on the 8 by 8 torus. -/
theorem gol_c4 :
    (generation ((generation toad dead_board).2) toad).2 = toad ∧
    (generation toad dead_board).2 ≠ toad ∧
    (generation ((generation beacon dead_board).2) beacon).2 = beacon ∧
    (generation beacon dead_board).2 ≠ beacon := by
  have key : ∀ b b' : Board, (generation b b').2 = step b := fun b b' => by
    rw [generation_eq]
  simp only [key]
  exact ⟨by decide, by decide, by decide, by decide⟩

/-- C7: one generation never modifies the source buffer, and the
destination it produces does not depend on the prior contents of the
destination buffer, so no destination write can be observed by any
computation of the same step. -/
theorem gol_c7 (fb tb tb' : Board) :
    (generation fb tb).1 = fb ∧
    (generation fb tb).2 = (generation fb tb').2 := by
  rw [generation_eq, generation_eq]
  exact ⟨rfl, rfl⟩

/-- Joining a nonempty list of strings starts with its head. -/
theorem join_cons (s : String) (l : List String) :
    String.join (s :: l) = s ++ String.join l := by
  apply String.ext
  simp [String.data_append]

/-- Reading the row-major rendering list at an in-range index yields the
entry for that index. -/
theorem finRange_map_getD {α : Type} (f : Fin N → α) (d : α) (i : Fin N) :
    ((List.finRange N).map f).getD i.val d = f i := by
  fin_cases i <;> rfl

/-- The `strcasecmp` test of the embedding decides case-insensitive
string equivalence. -/
theorem strcaseEq_iff (s t : String) : strcaseEq s t = true ↔ case_eq s t := by
  unfold strcaseEq case_eq
  exact beq_iff_eq

/-- C5: with the TESTING build flag on, `init` succeeds exactly on the
five pattern names blinker, toad, beacon, random and test, each matched
case-insensitively, and fails on every other string; `init` on "test"
succeeds and yields the board whose live cells are exactly (0,0),
(N-1,0) and (N-1,1). -/
theorem gol_c5 (randf : Nat → Nat) (s : String) (cur nxt : Board) :
    ((init true randf s cur nxt).1 = none ↔
      (case_eq s "blinker" ∨ case_eq s "toad" ∨ case_eq s "beacon" ∨
        case_eq s "random" ∨ case_eq s "test")) ∧
    init true randf "test" cur nxt = (none, test_board, nxt) ∧
    (∀ r c : Fin N, test_board r c = ALIVE ↔
      ((r.val = 0 ∧ c.val = 0) ∨ (r.val = N - 1 ∧ c.val = 0) ∨
        (r.val = N - 1 ∧ c.val = 1))) := by
  refine ⟨?_, rfl, by decide⟩
  unfold init
  split_ifs with h1 h2 h3 h4 h5
  · exact iff_of_true rfl (Or.inl ((strcaseEq_iff s _).mp h1))
  · exact iff_of_true rfl (Or.inr (Or.inl ((strcaseEq_iff s _).mp h2)))
  · exact iff_of_true rfl (Or.inr (Or.inr (Or.inl ((strcaseEq_iff s _).mp h3))))
  · exact iff_of_true rfl
      (Or.inr (Or.inr (Or.inr (Or.inl ((strcaseEq_iff s _).mp h4)))))
  · have h5' : strcaseEq s "test" = true := by
      simpa using h5
    exact iff_of_true rfl
      (Or.inr (Or.inr (Or.inr (Or.inr ((strcaseEq_iff s _).mp h5')))))
  · refine iff_of_false (by simp) ?_
    rintro (h | h | h | h | h)
    · exact h1 ((strcaseEq_iff s _).mpr h)
    · exact h2 ((strcaseEq_iff s _).mpr h)
    · exact h3 ((strcaseEq_iff s _).mpr h)
    · exact h4 ((strcaseEq_iff s _).mpr h)
    · exact h5 (by simp [(strcaseEq_iff s _).mpr h])

/-- Witness for C5: the uppercase spelling BLINKER is accepted. -/
theorem gol_c5_witness :
    (init true (fun _ => 0) "BLINKER" dead_board dead_board).1 = none :=
  (gol_c5 (fun _ => 0) "BLINKER" dead_board dead_board).1.mpr (Or.inl (by decide))

/-- C6: on any string equivalent to none of the recognized names, `init`
reports the unknown-pattern error and both board buffers come out
exactly as they went in, whichever value the TESTING flag has. -/
theorem gol_c6 (testing : Bool) (randf : Nat → Nat) (s : String)
    (cur nxt : Board)
    (h : ¬ case_eq s "blinker" ∧ ¬ case_eq s "toad" ∧ ¬ case_eq s "beacon" ∧
      ¬ case_eq s "random" ∧ ¬ case_eq s "test") :
    init testing randf s cur nxt =
      (some ("Unknown pattern: " ++ s ++ "\n"), cur, nxt) := by
  obtain ⟨h1, h2, h3, h4, h5⟩ := h
  have hlast : ¬((testing && strcaseEq s "test") = true) := by
    intro hh
    rw [Bool.and_eq_true] at hh
    exact h5 ((strcaseEq_iff s _).mp hh.2)
  unfold init
  rw [if_neg (fun hh => h1 ((strcaseEq_iff s _).mp hh)),
    if_neg (fun hh => h2 ((strcaseEq_iff s _).mp hh)),
    if_neg (fun hh => h3 ((strcaseEq_iff s _).mp hh)),
    if_neg (fun hh => h4 ((strcaseEq_iff s _).mp hh)),
    if_neg hlast]

/-- Witness for C6: the string nonsense is rejected and the buffers are
returned untouched. -/
theorem gol_c6_witness :
    (¬ case_eq "nonsense" "blinker" ∧ ¬ case_eq "nonsense" "toad" ∧
      ¬ case_eq "nonsense" "beacon" ∧ ¬ case_eq "nonsense" "random" ∧
      ¬ case_eq "nonsense" "test") ∧
    init false (fun _ => 0) "nonsense" dead_board dead_board =
      (some ("Unknown pattern: " ++ "nonsense" ++ "\n"), dead_board, dead_board) :=
  ⟨by decide,
    gol_c6 false (fun _ => 0) "nonsense" dead_board dead_board (by decide)⟩

/-- C8: the swapping run loop renders exactly 3 + 1 boards, and they are
precisely the initial board followed by the first three iterates of the
pure step function, so the buffer swapping is unobservable. -/
theorem gol_c8 (b1 b2 : Board) :
    run_boards b1 b2 = [b1, step b1, step (step b1), step (step (step b1))] ∧
    (run_boards b1 b2).length = 3 + 1 := by
  have key : ∀ b b' : Board, (generation b b').2 = step b := fun b b' => by
    rw [generation_eq]
  have h : run_boards b1 b2 =
      [b1, (generation b1 b2).2,
        (generation ((generation b1 b2).2) b1).2,
        (generation ((generation ((generation b1 b2).2) b1).2)
          ((generation b1 b2).2)).2] := rfl
  rw [h]
  simp only [key]
  exact ⟨trivial, rfl⟩

/-- The text printed inside the run loop is each rendered generation
followed by the separating blank line, in order. -/
theorem run_out_loop_join : ∀ (i : Nat) (b1 b2 : Board),
    run_out_loop i b1 b2 =
      String.join ((run_loop i b1 b2).map (fun g => print_board g ++ "\n")) := by
  intro i
  induction i with
  | zero => intro b1 b2; rfl
  | succ i ih =>
    intro b1 b2
    show print_board ((generation b1 b2).2) ++ "\n"
        ++ run_out_loop i ((generation b1 b2).2) b1 = _
    rw [ih]
    rw [show run_loop (i + 1) b1 b2 =
      ((generation b1 b2).2) :: run_loop i ((generation b1 b2).2) b1 from rfl]
    rw [List.map_cons, join_cons, String.append_assoc]

/-- C9: rendering a board produces exactly N rows of N characters each,
top row first, an X for each ALIVE cell and a dot for each DEAD cell;
the printed text is those rows each followed by a newline; the run
output is each rendered generation followed by a separating blank line;
and rendering is a pure function, so rendering the same board twice
gives identical text. -/
theorem gol_c9 (board : Board) :
    (board_lines board).length = N ∧
    (∀ r : Fin N, ((board_lines board).getD r.val "").length = N) ∧
    (∀ r c : Fin N, ((board_lines board).getD r.val "").data.getD c.val ' ' =
      if board r c = ALIVE then 'X' else '.') ∧
    print_board board =
      String.join ((board_lines board).map (fun line => line ++ "\n")) ∧
    (∀ b1 b2 : Board, run_output b1 b2 =
      String.join ((run_boards b1 b2).map (fun g => print_board g ++ "\n"))) ∧
    print_board board = print_board board := by
  refine ⟨by simp [board_lines], ?_, ?_, rfl, ?_, rfl⟩
  · intro r
    rw [board_lines, finRange_map_getD]
    simp [render_row]
  · intro r c
    rw [board_lines, finRange_map_getD]
    show ((List.finRange N).map (fun col =>
      if life_cell board r col == ALIVE then 'X' else '.')).getD c.val ' ' = _
    rw [finRange_map_getD]
    simp [life_cell]
  · intro b1 b2
    show print_board b1 ++ "\n" ++ run_out_loop 3 b1 b2 =
      String.join ((b1 :: run_loop 3 b1 b2).map (fun g => print_board g ++ "\n"))
    rw [run_out_loop_join, List.map_cons, join_cons, String.append_assoc]

/-- C10: every pattern initializer, including the random one for every
rand stream, produces a 0/1-valued board; the generation loop body
always writes its cell (the four branch tests are exhaustive and
mutually exclusive over every count); the loop visits every cell exactly
once; and one generation preserves 0/1-validity of the board. -/
theorem gol_c10 :
    (∀ randf : Nat → Nat, valid_board (random_board randf)) ∧
    valid_board blinker ∧ valid_board toad ∧ valid_board beacon ∧
    valid_board test_board ∧
    (∀ (fb tb : Board) (rc : Fin N × Fin N), gen_cell fb tb rc =
      set_cell tb rc.1 rc.2
        (lifeRule (live_neighbors fb rc.1 rc.2) (life_cell fb rc.1 rc.2))) ∧
    (∀ p : Fin N × Fin N, p ∈ cells) ∧
    cells.Nodup ∧
    (∀ n : Nat, (n < 2 ∨ n = 2 ∨ n = 3 ∨ 3 < n) ∧
      ¬(n < 2 ∧ n = 2) ∧ ¬(n < 2 ∧ n = 3) ∧ ¬(n < 2 ∧ 3 < n) ∧
      ¬(n = 2 ∧ n = 3) ∧ ¬(n = 2 ∧ 3 < n) ∧ ¬(n = 3 ∧ 3 < n)) ∧
    (∀ fb tb : Board, valid_board fb → valid_board ((generation fb tb).2)) := by
  refine ⟨?_, by decide, by decide, by decide, by decide,
    fun fb tb rc => gen_cell_eq fb tb rc, cells_complete, cells_nodup,
    fun n => by omega, ?_⟩
  · intro randf r c
    show randf (r.val * N + c.val) % 2 = DEAD ∨ randf (r.val * N + c.val) % 2 = ALIVE
    have := Nat.mod_two_eq_zero_or_one (randf (r.val * N + c.val))
    simpa [DEAD, ALIVE] using this
  · intro fb tb hv
    rw [generation_eq]
    intro r c
    show lifeRule (live_neighbors fb r c) (life_cell fb r c) = DEAD ∨
      lifeRule (live_neighbors fb r c) (life_cell fb r c) = ALIVE
    unfold lifeRule
    split_ifs
    · exact Or.inl rfl
    · exact hv r c
    · exact Or.inr rfl
    · exact Or.inl rfl

/-- Witness for C10: validity of the blinker board is preserved by one
generation. -/
theorem gol_c10_witness :
    valid_board blinker ∧ valid_board ((generation blinker dead_board).2) :=
  ⟨by decide, gol_c10.2.2.2.2.2.2.2.2.2 blinker dead_board (by decide)⟩
